import Mathlib

/-!
Verification of the coordinate-system core of `bb_cs.py` (bigbug_hex).

The development shallowly embeds the Python source:

* pure numeric code (`calc_transformation_matrix`, the relevant entry of
  `tf.transformations.euler_matrix`, `tf.transformations.translation_matrix`)
  becomes functions on real 4x4 matrices;
* the mutable object heap (every `CoordinateSystem` instance plus the
  process-wide `route_base` dict) becomes an explicit `World` value threaded
  through the operations, with Python object references modelled as indices
  into the heap;
* Python exceptions become `Except PyErr`.

Matrix entries are real numbers standing in for IEEE floats; all numeric
facts proved here are exact-arithmetic statements about the formulas the
code computes.
-/

noncomputable section

/-- Python exceptions that the embedded code can raise. -/
inductive PyErr
  /-- a `TypeError` (e.g. `float + None`, or `str()` hitting the
  `@property`-decorated `__str__`). -/
  | typeError
  /-- a plain `raise Exception(msg)`. -/
  | pyException (msg : String)
deriving DecidableEq

abbrev Mat4 := Matrix (Fin 4) (Fin 4) ℝ
abbrev Col4 := Matrix (Fin 4) (Fin 1) ℝ

/-- `math.radians`: degrees to radians. -/
def radians (d : ℝ) : ℝ := d * (Real.pi / 180)

/-- One numpy-style entry assignment `M[r, c] = v` (functionally). -/
def setEntry (M : Mat4) (r c : ℕ) (v : ℝ) : Mat4 :=
  Matrix.of fun i j => if (i : ℕ) = r ∧ (j : ℕ) = c then v else M i j

/-- `transformations._NEXT_AXIS = [1, 2, 0, 1]`. -/
def NEXT_AXIS : List ℕ := [1, 2, 0, 1]

/-- The `transformations._AXES2TUPLE` lookup
`(firstaxis, parity, repetition, frame)`; only the key `"rzxy"` used by
`bb_cs.py` is modelled. -/
def AXES2TUPLE (axes : String) : Option (ℕ × ℕ × ℕ × ℕ) :=
  if axes = "rzxy" then some (1, 1, 0, 1) else none

/-- Body of `transformations.euler_matrix` after the axes tuple has been
resolved.  The index `k` is computed as `i + 1 - parity`, which agrees with
the source's `i - parity + 1` for every tuple in `_AXES2TUPLE` while staying
inside natural-number arithmetic; the `if frame` / `if parity` swaps and
negations of the angles are written out one scalar at a time. -/
def euler_matrix_core (firstaxis parity repetition frame : ℕ) (ai0 aj0 ak0 : ℝ) : Mat4 :=
  let i := firstaxis
  let j := NEXT_AXIS.getD (i + parity) 0
  let k := NEXT_AXIS.getD (i + 1 - parity) 0
  let ai1 := if frame ≠ 0 then ak0 else ai0
  let ak1 := if frame ≠ 0 then ai0 else ak0
  let ai := if parity ≠ 0 then -ai1 else ai1
  let aj := if parity ≠ 0 then -aj0 else aj0
  let ak := if parity ≠ 0 then -ak1 else ak1
  let si := Real.sin ai
  let sj := Real.sin aj
  let sk := Real.sin ak
  let ci := Real.cos ai
  let cj := Real.cos aj
  let ck := Real.cos ak
  let cc := ci * ck
  let cs := ci * sk
  let sc := si * ck
  let ss := si * sk
  if repetition ≠ 0 then
    setEntry (setEntry (setEntry (setEntry (setEntry (setEntry (setEntry (setEntry (setEntry
      (1 : Mat4)
      i i cj) i j (sj * si)) i k (sj * ci))
      j i (sj * sk)) j j (-cj * ss + cc)) j k (-cj * cs - sc))
      k i (-sj * ck)) k j (cj * sc + cs)) k k (cj * cc - ss)
  else
    setEntry (setEntry (setEntry (setEntry (setEntry (setEntry (setEntry (setEntry (setEntry
      (1 : Mat4)
      i i (cj * ck)) i j (sj * sc - cs)) i k (sj * cc + ss))
      j i (cj * sk)) j j (sj * ss + cc)) j k (sj * cs - sc))
      k i (-sj)) k j (cj * si)) k k (cj * ci)

/-- `transformations.euler_matrix(ai, aj, ak, axes)`; `none` models the
exception raised on an unknown axes string. -/
def euler_matrix (ai aj ak : ℝ) (axes : String) : Option Mat4 :=
  (AXES2TUPLE axes).map fun t => euler_matrix_core t.1 t.2.1 t.2.2.1 t.2.2.2 ai aj ak

/-- `transformations.translation_matrix((x, y, z))`. -/
def translation_matrix (x y z : ℝ) : Mat4 :=
  !![1, 0, 0, x; 0, 1, 0, y; 0, 0, 1, z; 0, 0, 0, 1]

/-- `bb_cs.calc_transformation_matrix`: `numpy.dot(t_mat, r_mat)` where
`r_mat = euler_matrix(radians(rotz), radians(rotx), radians(roty), 'rzxy')`.
The axes key is valid, so `euler_matrix` always returns `some`; the `getD`
default is unreachable (see `euler_matrix_rzxy`). -/
def calc_transformation_matrix (x y z rotx roty rotz : ℝ) : Mat4 :=
  let r_mat := (euler_matrix (radians rotz) (radians rotx) (radians roty) "rzxy").getD 1
  let t_mat := translation_matrix x y z
  t_mat * r_mat

/-- Spec-side standard homogeneous rotation about Z. -/
def RotZ (θ : ℝ) : Mat4 :=
  !![Real.cos θ, -Real.sin θ, 0, 0;
     Real.sin θ, Real.cos θ, 0, 0;
     0, 0, 1, 0;
     0, 0, 0, 1]

/-- Spec-side standard homogeneous rotation about X. -/
def RotX (θ : ℝ) : Mat4 :=
  !![1, 0, 0, 0;
     0, Real.cos θ, -Real.sin θ, 0;
     0, Real.sin θ, Real.cos θ, 0;
     0, 0, 0, 1]

/-- Spec-side standard homogeneous rotation about Y. -/
def RotY (θ : ℝ) : Mat4 :=
  !![Real.cos θ, 0, Real.sin θ, 0;
     0, 1, 0, 0;
     -Real.sin θ, 0, Real.cos θ, 0;
     0, 0, 0, 1]

/-- Spec-side `RotationZXY`: rotation composed in the fixed axis order
Z, then X, then Y (the spec's wording for the `'rzxy'` order). -/
def rotationZXY (θz θx θy : ℝ) : Mat4 := RotZ θz * RotX θx * RotY θy

lemma euler_matrix_rzxy (ai aj ak : ℝ) :
    euler_matrix ai aj ak "rzxy" = some (euler_matrix_core 1 1 0 1 ai aj ak) := by
  simp [euler_matrix, AXES2TUPLE]

lemma fin4_val_zero : ((0 : Fin 4) : ℕ) = 0 := rfl

lemma fin4_val_one : ((1 : Fin 4) : ℕ) = 1 := rfl

lemma fin4_val_two : ((2 : Fin 4) : ℕ) = 2 := rfl

lemma fin4_val_three : ((3 : Fin 4) : ℕ) = 3 := rfl

set_option maxHeartbeats 1600000 in
/-- The `'rzxy'` instantiation of the generic `euler_matrix` algorithm is
exactly a Z-then-X-then-Y rotation composition. -/
lemma euler_matrix_core_rzxy_eq (ai aj ak : ℝ) :
    euler_matrix_core 1 1 0 1 ai aj ak = RotZ ai * RotX aj * RotY ak := by
  ext i j
  fin_cases i <;> fin_cases j <;>
    simp [euler_matrix_core, setEntry, NEXT_AXIS, RotZ, RotX, RotY,
      Matrix.mul_apply, Fin.sum_univ_four, Matrix.one_apply,
      Matrix.vecHead, Matrix.vecTail,
      fin4_val_zero, fin4_val_one, fin4_val_two, fin4_val_three,
      Real.sin_neg, Real.cos_neg] <;>
    ring

/-- `calc_transformation_matrix` factored through the spec-side matrices. -/
lemma calc_eq (x y z rotx roty rotz : ℝ) :
    calc_transformation_matrix x y z rotx roty rotz =
      translation_matrix x y z *
        rotationZXY (radians rotz) (radians rotx) (radians roty) := by
  rw [calc_transformation_matrix, euler_matrix_rzxy, euler_matrix_core_rzxy_eq]
  rfl

lemma rotZ_mul_rotZ_neg (θ : ℝ) : RotZ θ * RotZ (-θ) = 1 := by
  ext i j
  fin_cases i <;> fin_cases j <;>
    simp [RotZ, Matrix.mul_apply, Fin.sum_univ_four, Matrix.one_apply,
      Matrix.vecHead, Matrix.vecTail, Real.sin_neg, Real.cos_neg] <;>
    first
    | ring1
    | linear_combination Real.sin_sq_add_cos_sq θ

lemma rotZ_neg_mul_rotZ (θ : ℝ) : RotZ (-θ) * RotZ θ = 1 := by
  have h := rotZ_mul_rotZ_neg (-θ)
  rwa [neg_neg] at h

lemma rotX_mul_rotX_neg (θ : ℝ) : RotX θ * RotX (-θ) = 1 := by
  ext i j
  fin_cases i <;> fin_cases j <;>
    simp [RotX, Matrix.mul_apply, Fin.sum_univ_four, Matrix.one_apply,
      Matrix.vecHead, Matrix.vecTail, Real.sin_neg, Real.cos_neg] <;>
    first
    | ring1
    | linear_combination Real.sin_sq_add_cos_sq θ

lemma rotX_neg_mul_rotX (θ : ℝ) : RotX (-θ) * RotX θ = 1 := by
  have h := rotX_mul_rotX_neg (-θ)
  rwa [neg_neg] at h

lemma rotY_mul_rotY_neg (θ : ℝ) : RotY θ * RotY (-θ) = 1 := by
  ext i j
  fin_cases i <;> fin_cases j <;>
    simp [RotY, Matrix.mul_apply, Fin.sum_univ_four, Matrix.one_apply,
      Matrix.vecHead, Matrix.vecTail, Real.sin_neg, Real.cos_neg] <;>
    first
    | ring1
    | linear_combination Real.sin_sq_add_cos_sq θ

lemma rotY_neg_mul_rotY (θ : ℝ) : RotY (-θ) * RotY θ = 1 := by
  have h := rotY_mul_rotY_neg (-θ)
  rwa [neg_neg] at h

lemma translation_mul_translation_neg (x y z : ℝ) :
    translation_matrix x y z * translation_matrix (-x) (-y) (-z) = 1 := by
  ext i j
  fin_cases i <;> fin_cases j <;>
    simp [translation_matrix, Matrix.mul_apply, Fin.sum_univ_four,
      Matrix.one_apply, Matrix.vecHead, Matrix.vecTail]

lemma translation_neg_mul_translation (x y z : ℝ) :
    translation_matrix (-x) (-y) (-z) * translation_matrix x y z = 1 := by
  have h := translation_mul_translation_neg (-x) (-y) (-z)
  rwa [neg_neg, neg_neg, neg_neg] at h

/-- The closed-form inverse of `calc_transformation_matrix`. -/
def calc_inverse (x y z rotx roty rotz : ℝ) : Mat4 :=
  RotY (-(radians roty)) * (RotX (-(radians rotx)) * (RotZ (-(radians rotz)) *
    translation_matrix (-x) (-y) (-z)))

lemma calc_mul_calc_inverse (x y z rotx roty rotz : ℝ) :
    calc_transformation_matrix x y z rotx roty rotz *
      calc_inverse x y z rotx roty rotz = 1 := by
  rw [calc_eq, rotationZXY, calc_inverse]
  have hY := rotY_mul_rotY_neg (radians roty)
  have hX := rotX_mul_rotX_neg (radians rotx)
  have hZ := rotZ_mul_rotZ_neg (radians rotz)
  have hT := translation_mul_translation_neg x y z
  calc translation_matrix x y z * (RotZ (radians rotz) * RotX (radians rotx) * RotY (radians roty)) *
        (RotY (-(radians roty)) * (RotX (-(radians rotx)) * (RotZ (-(radians rotz)) *
          translation_matrix (-x) (-y) (-z))))
      = translation_matrix x y z * (RotZ (radians rotz) * (RotX (radians rotx) *
          ((RotY (radians roty) * RotY (-(radians roty))) * (RotX (-(radians rotx)) *
            (RotZ (-(radians rotz)) * translation_matrix (-x) (-y) (-z)))))) := by
        simp only [Matrix.mul_assoc]
    _ = 1 := by
        rw [hY, Matrix.one_mul, ← Matrix.mul_assoc (RotX (radians rotx)), hX, Matrix.one_mul,
          ← Matrix.mul_assoc (RotZ (radians rotz)), hZ, Matrix.one_mul, hT]

lemma calc_inverse_mul_calc (x y z rotx roty rotz : ℝ) :
    calc_inverse x y z rotx roty rotz *
      calc_transformation_matrix x y z rotx roty rotz = 1 := by
  rw [calc_eq, rotationZXY, calc_inverse]
  have hY := rotY_neg_mul_rotY (radians roty)
  have hX := rotX_neg_mul_rotX (radians rotx)
  have hZ := rotZ_neg_mul_rotZ (radians rotz)
  have hT := translation_neg_mul_translation x y z
  calc RotY (-(radians roty)) * (RotX (-(radians rotx)) * (RotZ (-(radians rotz)) *
          translation_matrix (-x) (-y) (-z))) *
        (translation_matrix x y z * (RotZ (radians rotz) * RotX (radians rotx) * RotY (radians roty)))
      = RotY (-(radians roty)) * (RotX (-(radians rotx)) * (RotZ (-(radians rotz)) *
          ((translation_matrix (-x) (-y) (-z) * translation_matrix x y z) *
            (RotZ (radians rotz) * (RotX (radians rotx) * RotY (radians roty)))))) := by
        simp only [Matrix.mul_assoc]
    _ = 1 := by
        rw [hT, Matrix.one_mul, ← Matrix.mul_assoc (RotZ (-(radians rotz))), hZ, Matrix.one_mul,
          ← Matrix.mul_assoc (RotX (-(radians rotx))), hX, Matrix.one_mul, hY]

/-- `numpy.linalg.inv` is modelled by `Matrix.inv`; on the always-invertible
matrices produced by `calc_transformation_matrix` it is the exact two-sided
inverse. -/
lemma calc_inv_eq (x y z rotx roty rotz : ℝ) :
    (calc_transformation_matrix x y z rotx roty rotz)⁻¹ =
      calc_inverse x y z rotx roty rotz :=
  Matrix.inv_eq_right_inv (calc_mul_calc_inverse x y z rotx roty rotz)

lemma calc_mul_own_inv (x y z rotx roty rotz : ℝ) :
    calc_transformation_matrix x y z rotx roty rotz *
      (calc_transformation_matrix x y z rotx roty rotz)⁻¹ = 1 := by
  rw [calc_inv_eq]; exact calc_mul_calc_inverse x y z rotx roty rotz

lemma calc_own_inv_mul (x y z rotx roty rotz : ℝ) :
    (calc_transformation_matrix x y z rotx roty rotz)⁻¹ *
      calc_transformation_matrix x y z rotx roty rotz = 1 := by
  rw [calc_inv_eq]; exact calc_inverse_mul_calc x y z rotx roty rotz

/-- The bottom row of every transform built by `calc_transformation_matrix`
is `(0, 0, 0, 1)` (the matrix is affine). -/
lemma calc_last_row (x y z rotx roty rotz : ℝ) (j : Fin 4) :
    calc_transformation_matrix x y z rotx roty rotz 3 j = (1 : Mat4) 3 j := by
  rw [calc_eq, rotationZXY]
  fin_cases j <;>
    simp [translation_matrix, RotZ, RotX, RotY, Matrix.mul_apply,
      Fin.sum_univ_four, Matrix.one_apply, Matrix.vecHead, Matrix.vecTail]


/-- A `CoordinateSystem` object's instance attributes (`bb_cs.py`, `__init__`).
`parent` is the heap index of the parent frame (`none` for a root).  The
source briefly sets `_mat_to_parent = None` before `__init__` calls
`redefine`, which unconditionally overwrites it; only the post-`__init__`
state (where it is always a matrix) is representable. -/
structure CoordinateSystem where
  parent : Option ℕ
  name : String
  x : ℝ
  y : ℝ
  z : ℝ
  rotx : ℝ
  roty : ℝ
  rotz : ℝ
  mat_to_parent : Mat4
  mat_from_parent : Option Mat4
  x_stored : ℝ
  y_stored : ℝ
  z_stored : ℝ
  rotx_stored : ℝ
  roty_stored : ℝ
  rotz_stored : ℝ

/-- A `Position` object: coordinates plus a heap reference to the owning
frame. -/
structure Position where
  owner : ℕ
  x : ℝ
  y : ℝ
  z : ℝ

/-- `CoordinateSystem.redefine`: each argument independently optional; a
supplied argument both feeds the matrix computation and replaces the stored
scalar, an omitted one reuses the current scalar.  `mat_to_parent` is
recomputed and the cached `mat_from_parent` is cleared. -/
def redefine (cs : CoordinateSystem)
    (new_x new_y new_z new_rotx new_roty new_rotz : Option ℝ) : CoordinateSystem :=
  let x := match new_x with | none => cs.x | some v => v
  let y := match new_y with | none => cs.y | some v => v
  let z := match new_z with | none => cs.z | some v => v
  let rotx := match new_rotx with | none => cs.rotx | some v => v
  let roty := match new_roty with | none => cs.roty | some v => v
  let rotz := match new_rotz with | none => cs.rotz | some v => v
  { cs with
    x := x, y := y, z := z, rotx := rotx, roty := roty, rotz := rotz,
    mat_to_parent := calc_transformation_matrix x y z rotx roty rotz,
    mat_from_parent := none }

/-- `CoordinateSystem.__init__`: stores the construction pose into the
backup slots and then calls `redefine` with all six values. -/
def mkCoordinateSystem (parent : Option ℕ) (name : String)
    (x y z rotx roty rotz : ℝ) : CoordinateSystem :=
  redefine
    { parent := parent, name := name,
      x := x, y := y, z := z, rotx := rotx, roty := roty, rotz := rotz,
      mat_to_parent := 1, mat_from_parent := none,
      x_stored := x, y_stored := y, z_stored := z,
      rotx_stored := rotx, roty_stored := roty, rotz_stored := rotz }
    (some x) (some y) (some z) (some rotx) (some roty) (some rotz)

/-- `CoordinateSystem.backup`: snapshot the six pose scalars. -/
def backup (cs : CoordinateSystem) : CoordinateSystem :=
  { cs with
    x_stored := cs.x, y_stored := cs.y, z_stored := cs.z,
    rotx_stored := cs.rotx, roty_stored := cs.roty, rotz_stored := cs.rotz }

/-- `CoordinateSystem.rollback`: `redefine` with the six stored scalars. -/
def rollback (cs : CoordinateSystem) : CoordinateSystem :=
  redefine cs (some cs.x_stored) (some cs.y_stored) (some cs.z_stored)
    (some cs.rotx_stored) (some cs.roty_stored) (some cs.rotz_stored)

/-- `CoordinateSystem.update_mat_from_parent`:
`numpy.linalg.inv(mat_to_parent)`, modelled by `Matrix.inv`. -/
def update_mat_from_parent (cs : CoordinateSystem) : CoordinateSystem :=
  { cs with mat_from_parent := some cs.mat_to_parent⁻¹ }

/-- Python `float + x` where `x` may be `None`: adding `None` raises a
`TypeError`. -/
def pyAdd (a : ℝ) : Option ℝ → Except PyErr ℝ
  | none => .error .typeError
  | some b => .ok (a + b)

/-- `CoordinateSystem.get_derivative` (bb_cs.py lines 174-207).  The three
rotation branches test `d_z` — not `d_rotx` / `d_roty` / `d_rotz` — exactly
as the source does, so when `d_z` is supplied while a rotation offset is
omitted the addition `self._rotx + d_rotx` is `float + None` and raises. -/
def get_derivative (cs : CoordinateSystem) (name : String)
    (d_x d_y d_z d_rotx d_roty d_rotz : Option ℝ) : Except PyErr CoordinateSystem :=
  let x := match d_x with | none => cs.x | some v => cs.x + v
  let y := match d_y with | none => cs.y | some v => cs.y + v
  let z := match d_z with | none => cs.z | some v => cs.z + v
  match d_z with
  | none =>
    -- `if d_z is None` on all three rotation axes: keep the current values
    .ok (mkCoordinateSystem cs.parent name x y z cs.rotx cs.roty cs.rotz)
  | some _ =>
    match pyAdd cs.rotx d_rotx with
    | .error e => .error e
    | .ok rotx =>
      match pyAdd cs.roty d_roty with
      | .error e => .error e
      | .ok roty =>
        match pyAdd cs.rotz d_rotz with
        | .error e => .error e
        | .ok rotz => .ok (mkCoordinateSystem cs.parent name x y z rotx roty rotz)

/-- Direction tags used in routes: `"up"`, `"down"`, `"root"`. -/
inductive Dir
  | up
  | down
  | root
deriving DecidableEq

/-- A conversion route: `(frame, direction)` steps. -/
abbrev Route := List (ℕ × Dir)

/-- The state of a run of the module: the heap of `CoordinateSystem`
objects (in construction order; a Python reference is an index) and the
process-wide `route_base` dict, modelled as an association list whose most
recent binding wins. -/
structure World where
  frames : List CoordinateSystem
  route_base : List (String × Route)

def defaultCS : CoordinateSystem :=
  { parent := none, name := "", x := 0, y := 0, z := 0,
    rotx := 0, roty := 0, rotz := 0,
    mat_to_parent := 1, mat_from_parent := none,
    x_stored := 0, y_stored := 0, z_stored := 0,
    rotx_stored := 0, roty_stored := 0, rotz_stored := 0 }

/-- Dereference a heap index.  Indices produced by the embedded operations
always point into the heap; the default is never reached on such indices. -/
def frameAt (w : World) (i : ℕ) : CoordinateSystem := w.frames.getD i defaultCS


/-- Replace the element at index `i` (in-place mutation of a heap slot). -/
def listModify (f : α → α) : ℕ → List α → List α
  | _, [] => []
  | 0, a :: t => f a :: t
  | n + 1, a :: t => a :: listModify f n t

/-- Mutate frame `i` of the heap with `update_mat_from_parent`. -/
def worldUpdateMatFromParent (w : World) (i : ℕ) : World :=
  { w with frames := listModify update_mat_from_parent i w.frames }

/-- `CoordinateSystem.to_root`: the frame followed by its ancestor chain.
The source's `while` loop terminates because parent links, fixed at
construction time, always point to earlier heap entries; the fuel
`w.frames.length` therefore never runs out on reachable states. -/
def to_root_fuel (frames : List CoordinateSystem) : ℕ → ℕ → List ℕ
  | 0, i => [i]
  | fuel + 1, i =>
    match (frames.getD i defaultCS).parent with
    | none => [i]
    | some p => i :: to_root_fuel frames fuel p

def to_root (w : World) (i : ℕ) : List ℕ := to_root_fuel w.frames w.frames.length i

/-- `closest_common_node`: first node of `cs1.to_root` present in
`cs2.to_root` (identity comparison = index equality). -/
def closest_common_node (w : World) (cs1 cs2 : ℕ) : Option ℕ :=
  (to_root w cs1).find? fun node => (to_root w cs2).contains node

/-- The cache-miss body of `route`: walk `from`'s ancestor chain tagging
`"up"`, retag the first node shared with `to`'s chain as `"root"`, then
append the part of `to`'s chain strictly below the pivot, reversed and
tagged `"down"` (`cs2_to_root[intersection_index - 1::-1]`). -/
def build_route (c1 c2 : List ℕ) : Option Route :=
  match c1 with
  | [] => none
  | node :: rest =>
    if node ∈ c2 then
      let intersection_index := c2.indexOf node
      let down_part :=
        if 0 < intersection_index then
          ((c2.take intersection_index).reverse).map fun m => (m, Dir.down)
        else []
      some ((node, Dir.root) :: down_part)
    else
      (build_route rest c2).map fun r => (node, Dir.up) :: r

/-- The cache key `from_cs.name + "-" + to_cs.name`. -/
def route_key (w : World) (from_cs to_cs : ℕ) : String :=
  (frameAt w from_cs).name ++ "-" ++ (frameAt w to_cs).name

/-- `route(from_cs, to_cs)`: consult `route_base`, otherwise build the
route and cache it on success.  Returns the route (or `none`) together with
the updated `route_base`. -/
def route (w : World) (from_cs to_cs : ℕ) : Option Route × List (String × Route) :=
  let route_desc := route_key w from_cs to_cs
  match w.route_base.lookup route_desc with
  | some r => (some r, w.route_base)
  | none =>
    match build_route (to_root w from_cs) (to_root w to_cs) with
    | some built => (some built, (route_desc, built) :: w.route_base)
    | none => (none, w.route_base)

/-- The homogeneous column `[[x], [y], [z], [1]]` built in `to_this`. -/
def colOf (p : Position) : Col4 := !![p.x; p.y; p.z; 1]

/-- The local `fill_position` helper of `to_this`: writes rows 0..2 of the
array into a `Position(self)` (row 3 is dropped). -/
def fill_position (owner : ℕ) (arr : Col4) : Position :=
  { owner := owner, x := arr 0 0, y := arr 1 0, z := arr 2 0 }

/-- `if self._mat_from_parent is None: self.update_mat_from_parent()`
followed by reading the matrix; returns the matrix read and the (possibly
mutated) heap. -/
def ensure_mat_from_parent (w : World) (i : ℕ) : Mat4 × World :=
  match (frameAt w i).mat_from_parent with
  | some m => (m, w)
  | none => ((frameAt w i).mat_to_parent⁻¹, worldUpdateMatFromParent w i)

/-- The matrix-gathering loop of `to_this` over a conversion route:
`mat_to_parent` for an `"up"` node, the (lazily filled) `mat_from_parent`
for a `"down"` node, nothing for the `"root"` node. -/
def gather_matrices (w : World) : Route → List Mat4 × World
  | [] => ([], w)
  | (n, Dir.up) :: rest =>
    ((frameAt w n).mat_to_parent :: (gather_matrices w rest).1,
      (gather_matrices w rest).2)
  | (n, Dir.down) :: rest =>
    ((ensure_mat_from_parent w n).1 ::
        (gather_matrices (ensure_mat_from_parent w n).2 rest).1,
      (gather_matrices (ensure_mat_from_parent w n).2 rest).2)
  | (_, Dir.root) :: rest => gather_matrices w rest

/-- `reduce(numpy.dot, ms)`: left fold of matrix product; `reduce` on an
empty sequence raises a `TypeError`. -/
def reduce_dot : List Mat4 → Except PyErr Mat4
  | [] => .error .typeError
  | m :: rest => .ok (rest.foldl (fun a b => a * b) m)

/-- `str()` applied to a `CoordinateSystem`.  The source declares `__str__`
as a `@property` (bb_cs.py line 85), so the special-method lookup performed
by `str()` does not reach a callable method and raises a `TypeError`
instead of producing the frame's name. -/
def str_coordinate_system (_cs : CoordinateSystem) : Except PyErr String :=
  .error .typeError

/-- `Position.__str__`: `str(self.owner) + " " + ...`.  The owner is a
`CoordinateSystem`, so the first subexpression raises (see
`str_coordinate_system`); the numeric formatting after it is unreachable
and is not modelled beyond a placeholder. -/
def str_position (w : World) (p : Position) : Except PyErr String :=
  match str_coordinate_system (frameAt w p.owner) with
  | .error e => .error e
  | .ok s => .ok (s ++ " " ++ "<formatted coordinates>")

/-- Result of `to_this`: either the argument itself, returned by reference
(`return position`), or a freshly constructed `Position` (`position_in_this`). -/
inductive ToThisResult
  | aliased
  | converted (p : Position)

/-- `CoordinateSystem.to_this(position)` on frame index `self`, returning
the result (or the raised exception) together with the possibly-mutated
heap and route cache. -/
def to_this (w : World) (self : ℕ) (position : Position) :
    Except PyErr ToThisResult × World :=
  if position.owner = self then
    -- position is already in this coordinate system: return it (aliased)
    (.ok .aliased, w)
  else if (frameAt w position.owner).parent = some self then
    -- position belongs to a child of this cs: apply its mat_to_parent
    (.ok (.converted (fill_position self
      ((frameAt w position.owner).mat_to_parent * colOf position))), w)
  else if (frameAt w self).parent = some position.owner then
    -- position belongs to the parent of this cs: apply mat_from_parent
    (.ok (.converted (fill_position self
      ((ensure_mat_from_parent w self).1 * colOf position))),
      (ensure_mat_from_parent w self).2)
  else
    match (route w position.owner self).1 with
    | none =>
      -- raise Exception("Could not convert " + str(position) + " to " + ...)
      match str_position { w with route_base := (route w position.owner self).2 } position with
      | .error e => (.error e, { w with route_base := (route w position.owner self).2 })
      | .ok s1 =>
        match str_coordinate_system
            (frameAt { w with route_base := (route w position.owner self).2 } self) with
        | .error e => (.error e, { w with route_base := (route w position.owner self).2 })
        | .ok s2 =>
          (.error (.pyException ("Could not convert " ++ s1 ++ " to " ++ s2 ++
            ": conversion route could not be found.")),
            { w with route_base := (route w position.owner self).2 })
    | some r =>
      match reduce_dot (gather_matrices
          { w with route_base := (route w position.owner self).2 } r).1.reverse with
      | .error e =>
        (.error e, (gather_matrices
          { w with route_base := (route w position.owner self).2 } r).2)
      | .ok aggregate =>
        (.ok (.converted (fill_position self (aggregate * colOf position))),
          (gather_matrices
            { w with route_base := (route w position.owner self).2 } r).2)

/-- The public operations of the module, acting on the heap. -/
inductive Op
  | construct (parent : Option ℕ) (name : String) (x y z rotx roty rotz : ℝ)
  | redefineOp (i : ℕ) (new_x new_y new_z new_rotx new_roty new_rotz : Option ℝ)
  | backupOp (i : ℕ)
  | rollbackOp (i : ℕ)
  | derivativeOp (i : ℕ) (name : String) (d_x d_y d_z d_rotx d_roty d_rotz : Option ℝ)
  | convertOp (i : ℕ) (p : Position)

/-- One public operation.  A raised exception leaves the heap as the
operation left it (for `get_derivative`, no object is ever constructed). -/
def step (w : World) : Op → World
  | .construct parent name x y z rotx roty rotz =>
    { w with frames := w.frames ++ [mkCoordinateSystem parent name x y z rotx roty rotz] }
  | .redefineOp i a b c d e f =>
    { w with frames := listModify (fun cs => redefine cs a b c d e f) i w.frames }
  | .backupOp i => { w with frames := listModify backup i w.frames }
  | .rollbackOp i => { w with frames := listModify rollback i w.frames }
  | .derivativeOp i name a b c d e f =>
    match get_derivative (frameAt w i) name a b c d e f with
    | .ok cs => { w with frames := w.frames ++ [cs] }
    | .error _ => w
  | .convertOp i p => (to_this w i p).2

/-- Run a sequence of public operations from the empty initial state. -/
def run (ops : List Op) : World := ops.foldl step { frames := [], route_base := [] }


/-- The per-frame matrix invariant of the spec: `mat_to_parent` is the
Transform Builder output for the current pose scalars, and any cached
`mat_from_parent` is an exact two-sided inverse of the current
`mat_to_parent`. -/
def FrameInv (cs : CoordinateSystem) : Prop :=
  cs.mat_to_parent =
    calc_transformation_matrix cs.x cs.y cs.z cs.rotx cs.roty cs.rotz ∧
  ∀ m, cs.mat_from_parent = some m →
    cs.mat_to_parent * m = 1 ∧ m * cs.mat_to_parent = 1

/-- Every frame on the heap satisfies `FrameInv`. -/
def WorldInv (w : World) : Prop := ∀ cs ∈ w.frames, FrameInv cs

/-- A sequence of `route` calls against the fixed topology of `w`, threading
the process-wide `route_base` through; models calling `route` repeatedly. -/
def callRoutes (w : World) : List (ℕ × ℕ) → List (String × Route) → List (String × Route)
  | [], base => base
  | q :: rest, base =>
    callRoutes w rest (route { w with route_base := base } q.1 q.2).2

/-- Cache consistency: every cached entry whose key is the key of a pair of
live frames stores exactly the freshly built route for that pair. -/
def GoodBase (w : World) (base : List (String × Route)) : Prop :=
  ∀ k r, base.lookup k = some r →
    ∀ a b, a < w.frames.length → b < w.frames.length → route_key w a b = k →
      build_route (to_root w a) (to_root w b) = some r

/-- The frame used by the claim-C1 evaluation. -/
def c1Base : CoordinateSystem := mkCoordinateSystem none "base" 0 0 0 0 0 0

/-- Two disconnected root frames (claim C2). -/
def c2World : World :=
  run [Op.construct none "r1" 0 0 0 0 0 0, Op.construct none "r2" 0 0 0 0 0 0]

/-- One tree whose frame names make the cache keys of the ordered pairs
`("a-b", "c")` and `("a", "b-c")` collide (claim C3): index 0 is root
`"a"`, 1 is `"b-c"` under the root, 2 is `"a-b"` under the root and 3 is
`"c"` under `"a-b"`. -/
def c3World : World :=
  run [Op.construct none "a" 0 0 0 0 0 0,
    Op.construct (some 0) "b-c" 0 0 0 0 0 0,
    Op.construct (some 0) "a-b" 0 0 0 0 0 0,
    Op.construct (some 2) "c" 0 0 0 0 0 0]

/-- `c3World` after the call `route("a-b", "c")` has populated the cache. -/
def c3World1 : World := { c3World with route_base := (route c3World 2 3).2 }

/-- A two-frame tree with hyphen-free names for the claim-C3 witness. -/
def c3WitnessWorld : World :=
  run [Op.construct none "p" 0 0 0 0 0 0, Op.construct (some 0) "q" 0 0 0 0 0 0]

/-- A root `G` (index 0) with one child `F` (index 1) for the round-trip
witness (claim C8). -/
def c8World : World :=
  run [Op.construct none "gw" 0 0 0 0 0 0, Op.construct (some 0) "fw" 0 0 0 0 0 0]

/-- A frame whose lazy inverse has been materialised (claim C9). -/
def c9Frame : CoordinateSystem :=
  update_mat_from_parent (mkCoordinateSystem none "r9" 1 2 3 4 5 6)


lemma redefine_x (cs : CoordinateSystem) (a b c d e f : Option ℝ) :
    (redefine cs a b c d e f).x = a.getD cs.x := by cases a <;> rfl

lemma redefine_y (cs : CoordinateSystem) (a b c d e f : Option ℝ) :
    (redefine cs a b c d e f).y = b.getD cs.y := by cases b <;> rfl

lemma redefine_z (cs : CoordinateSystem) (a b c d e f : Option ℝ) :
    (redefine cs a b c d e f).z = c.getD cs.z := by cases c <;> rfl

lemma redefine_rotx (cs : CoordinateSystem) (a b c d e f : Option ℝ) :
    (redefine cs a b c d e f).rotx = d.getD cs.rotx := by cases d <;> rfl

lemma redefine_roty (cs : CoordinateSystem) (a b c d e f : Option ℝ) :
    (redefine cs a b c d e f).roty = e.getD cs.roty := by cases e <;> rfl

lemma redefine_rotz (cs : CoordinateSystem) (a b c d e f : Option ℝ) :
    (redefine cs a b c d e f).rotz = f.getD cs.rotz := by cases f <;> rfl

lemma redefine_mat_to (cs : CoordinateSystem) (a b c d e f : Option ℝ) :
    (redefine cs a b c d e f).mat_to_parent =
      calc_transformation_matrix (a.getD cs.x) (b.getD cs.y) (c.getD cs.z)
        (d.getD cs.rotx) (e.getD cs.roty) (f.getD cs.rotz) := by
  cases a <;> cases b <;> cases c <;> cases d <;> cases e <;> cases f <;> rfl

lemma redefine_mat_from (cs : CoordinateSystem) (a b c d e f : Option ℝ) :
    (redefine cs a b c d e f).mat_from_parent = none := rfl

lemma frameInv_redefine (cs : CoordinateSystem) (a b c d e f : Option ℝ) :
    FrameInv (redefine cs a b c d e f) := by
  refine ⟨rfl, ?_⟩
  intro m hm
  rw [redefine_mat_from] at hm
  exact Option.noConfusion hm

lemma frameInv_mk (parent : Option ℕ) (name : String) (x y z rotx roty rotz : ℝ) :
    FrameInv (mkCoordinateSystem parent name x y z rotx roty rotz) :=
  frameInv_redefine _ _ _ _ _ _ _

lemma frameInv_backup {cs : CoordinateSystem} (h : FrameInv cs) :
    FrameInv (backup cs) := ⟨h.1, h.2⟩

lemma frameInv_update {cs : CoordinateSystem} (h : FrameInv cs) :
    FrameInv (update_mat_from_parent cs) := by
  refine ⟨h.1, ?_⟩
  intro m hm
  have hm' : some cs.mat_to_parent⁻¹ = some m := hm
  obtain rfl : cs.mat_to_parent⁻¹ = m := Option.some.inj hm'
  constructor
  · show cs.mat_to_parent * cs.mat_to_parent⁻¹ = 1
    rw [h.1]
    exact calc_mul_own_inv _ _ _ _ _ _
  · show cs.mat_to_parent⁻¹ * cs.mat_to_parent = 1
    rw [h.1]
    exact calc_own_inv_mul _ _ _ _ _ _

/-- C7: `calc_transformation_matrix` is (a pure function) equal to
`Translate(x,y,z) * RotationZXY(rotz, rotx, roty)`, with the rotation
composed in the fixed Z-then-X-then-Y order and the degree inputs
converted to radians before any trigonometric use. -/
theorem c7_calc_transformation_matrix_spec (x y z rotx roty rotz : ℝ) :
    calc_transformation_matrix x y z rotx roty rotz =
      translation_matrix x y z *
        rotationZXY (radians rotz) (radians rotx) (radians roty) :=
  calc_eq x y z rotx roty rotz

/-- C5: `redefine` replaces exactly the supplied pose scalars, keeps the
omitted ones, recomputes `mat_to_parent` from the resulting six scalars via
the Transform Builder and clears `mat_from_parent`; being a total function
of its arguments, it never fails. -/
theorem c5_redefine_spec (cs : CoordinateSystem) (a b c d e f : Option ℝ) :
    (redefine cs a b c d e f).x = a.getD cs.x ∧
    (redefine cs a b c d e f).y = b.getD cs.y ∧
    (redefine cs a b c d e f).z = c.getD cs.z ∧
    (redefine cs a b c d e f).rotx = d.getD cs.rotx ∧
    (redefine cs a b c d e f).roty = e.getD cs.roty ∧
    (redefine cs a b c d e f).rotz = f.getD cs.rotz ∧
    (redefine cs a b c d e f).mat_to_parent =
      calc_transformation_matrix (a.getD cs.x) (b.getD cs.y) (c.getD cs.z)
        (d.getD cs.rotx) (e.getD cs.roty) (f.getD cs.rotz) ∧
    (redefine cs a b c d e f).mat_from_parent = none :=
  ⟨redefine_x cs a b c d e f, redefine_y cs a b c d e f, redefine_z cs a b c d e f,
    redefine_rotx cs a b c d e f, redefine_roty cs a b c d e f,
    redefine_rotz cs a b c d e f, redefine_mat_to cs a b c d e f,
    redefine_mat_from cs a b c d e f⟩

/-- C10: construction initialises the backup slots with the construction
pose, so `rollback` before any `backup` is well-defined and leaves the pose
scalars at the values supplied at construction. -/
theorem c10_rollback_before_backup (parent : Option ℕ) (name : String)
    (x y z rotx roty rotz : ℝ) :
    (mkCoordinateSystem parent name x y z rotx roty rotz).x_stored = x ∧
    (mkCoordinateSystem parent name x y z rotx roty rotz).y_stored = y ∧
    (mkCoordinateSystem parent name x y z rotx roty rotz).z_stored = z ∧
    (mkCoordinateSystem parent name x y z rotx roty rotz).rotx_stored = rotx ∧
    (mkCoordinateSystem parent name x y z rotx roty rotz).roty_stored = roty ∧
    (mkCoordinateSystem parent name x y z rotx roty rotz).rotz_stored = rotz ∧
    (rollback (mkCoordinateSystem parent name x y z rotx roty rotz)).x = x ∧
    (rollback (mkCoordinateSystem parent name x y z rotx roty rotz)).y = y ∧
    (rollback (mkCoordinateSystem parent name x y z rotx roty rotz)).z = z ∧
    (rollback (mkCoordinateSystem parent name x y z rotx roty rotz)).rotx = rotx ∧
    (rollback (mkCoordinateSystem parent name x y z rotx roty rotz)).roty = roty ∧
    (rollback (mkCoordinateSystem parent name x y z rotx roty rotz)).rotz = rotz :=
  ⟨rfl, rfl, rfl, rfl, rfl, rfl, rfl, rfl, rfl, rfl, rfl, rfl⟩

/-- C4: converting a position already owned by the target frame returns the
very same object (the `return position` branch, modelled by `.aliased`) and
leaves the heap untouched. -/
theorem c4_same_frame_aliasing (w : World) (self : ℕ) (p : Position)
    (h : p.owner = self) : to_this w self p = (.ok .aliased, w) := by
  simp [to_this, h]

/-- Witness for `c4_same_frame_aliasing` at a concrete frame and position. -/
theorem c4_same_frame_aliasing_witness :
    to_this c2World 0 { owner := 0, x := 1, y := 2, z := 3 } =
      (.ok .aliased, c2World) :=
  c4_same_frame_aliasing c2World 0 { owner := 0, x := 1, y := 2, z := 3 } rfl

/-- C1 (evaluation of the defect): on a frame with all-zero pose,
supplying only `d_rotx = 1` is silently ignored (the returned frame keeps
`rotx = 0` because the gate tests `d_z`), and supplying only `d_z = 1`
raises a `TypeError` (the rotation branches then evaluate `float + None`)
instead of returning a frame offset in `z` alone. -/
theorem c1_get_derivative_rotation_gate :
    (∃ cs', get_derivative c1Base "d" none none none (some 1) none none = .ok cs' ∧
      cs'.rotx = 0 ∧ cs'.parent = c1Base.parent) ∧
    get_derivative c1Base "d" none none (some 1) none none none =
      .error .typeError :=
  ⟨⟨_, rfl, rfl, rfl⟩, rfl⟩

/-- C9 (counterexample): for a frame whose lazy inverse has been
materialised, `backup(); redefine(...); rollback()` does not restore the
matrices exactly — `mat_from_parent` comes back as `None`, not as the
matrix it held before. -/
theorem c9_rollback_counterexample :
    (rollback (redefine (backup c9Frame) (some 7) (some 7) (some 7)
        (some 7) (some 7) (some 7))).mat_from_parent ≠
      c9Frame.mat_from_parent := by
  intro h
  rw [show (rollback (redefine (backup c9Frame) (some 7) (some 7) (some 7)
      (some 7) (some 7) (some 7))).mat_from_parent = none from rfl,
    show c9Frame.mat_from_parent =
      some (mkCoordinateSystem none "r9" 1 2 3 4 5 6).mat_to_parent⁻¹ from rfl] at h
  exact Option.noConfusion h

/-- C9 (amended): `backup(); redefine(...); rollback()` restores the six
pose scalars and `mat_to_parent` exactly; `mat_from_parent` is cleared to
`None` (so it equals its pre-backup value only when that value was `None`),
`rollback` is exactly `redefine` with the six backed-up scalars, and a
`backup` overwrites whatever the single backup slot held. -/
theorem c9_backup_rollback_amended (cs : CoordinateSystem) (a b c d e f : Option ℝ)
    (hInv : cs.mat_to_parent =
      calc_transformation_matrix cs.x cs.y cs.z cs.rotx cs.roty cs.rotz) :
    (rollback (redefine (backup cs) a b c d e f)).x = cs.x ∧
    (rollback (redefine (backup cs) a b c d e f)).y = cs.y ∧
    (rollback (redefine (backup cs) a b c d e f)).z = cs.z ∧
    (rollback (redefine (backup cs) a b c d e f)).rotx = cs.rotx ∧
    (rollback (redefine (backup cs) a b c d e f)).roty = cs.roty ∧
    (rollback (redefine (backup cs) a b c d e f)).rotz = cs.rotz ∧
    (rollback (redefine (backup cs) a b c d e f)).mat_to_parent = cs.mat_to_parent ∧
    (rollback (redefine (backup cs) a b c d e f)).mat_from_parent = none ∧
    (∀ g : CoordinateSystem, rollback g =
      redefine g (some g.x_stored) (some g.y_stored) (some g.z_stored)
        (some g.rotx_stored) (some g.roty_stored) (some g.rotz_stored)) ∧
    (∀ g : CoordinateSystem, (backup g).x_stored = g.x ∧ (backup g).y_stored = g.y ∧
      (backup g).z_stored = g.z ∧ (backup g).rotx_stored = g.rotx ∧
      (backup g).roty_stored = g.roty ∧ (backup g).rotz_stored = g.rotz) := by
  refine ⟨rfl, rfl, rfl, rfl, rfl, rfl, ?_, rfl, fun g => rfl,
    fun g => ⟨rfl, rfl, rfl, rfl, rfl, rfl⟩⟩
  rw [hInv]
  rfl

/-- Witness for `c9_backup_rollback_amended` on a concrete frame. -/
theorem c9_backup_rollback_witness :
    (rollback (redefine (backup c9Frame) (some 9) (some 8) (some 7)
        (some 6) (some 5) (some 4))).x = c9Frame.x ∧
    (rollback (redefine (backup c9Frame) (some 9) (some 8) (some 7)
        (some 6) (some 5) (some 4))).y = c9Frame.y ∧
    (rollback (redefine (backup c9Frame) (some 9) (some 8) (some 7)
        (some 6) (some 5) (some 4))).z = c9Frame.z ∧
    (rollback (redefine (backup c9Frame) (some 9) (some 8) (some 7)
        (some 6) (some 5) (some 4))).rotx = c9Frame.rotx ∧
    (rollback (redefine (backup c9Frame) (some 9) (some 8) (some 7)
        (some 6) (some 5) (some 4))).roty = c9Frame.roty ∧
    (rollback (redefine (backup c9Frame) (some 9) (some 8) (some 7)
        (some 6) (some 5) (some 4))).rotz = c9Frame.rotz ∧
    (rollback (redefine (backup c9Frame) (some 9) (some 8) (some 7)
        (some 6) (some 5) (some 4))).mat_to_parent = c9Frame.mat_to_parent ∧
    (rollback (redefine (backup c9Frame) (some 9) (some 8) (some 7)
        (some 6) (some 5) (some 4))).mat_from_parent = none ∧
    (∀ g : CoordinateSystem, rollback g =
      redefine g (some g.x_stored) (some g.y_stored) (some g.z_stored)
        (some g.rotx_stored) (some g.roty_stored) (some g.rotz_stored)) ∧
    (∀ g : CoordinateSystem, (backup g).x_stored = g.x ∧ (backup g).y_stored = g.y ∧
      (backup g).z_stored = g.z ∧ (backup g).rotx_stored = g.rotx ∧
      (backup g).roty_stored = g.roty ∧ (backup g).rotz_stored = g.rotz) :=
  c9_backup_rollback_amended c9Frame (some 9) (some 8) (some 7) (some 6) (some 5)
    (some 4) rfl


/-- C2 (evaluation of the defect): converting a position owned by a frame
of a disconnected tree never returns a result — the call raises — but what
is raised is a bare `TypeError` (from `str()` on a frame whose `__str__` is
a `@property`), not an error object carrying the two frame names: the
message-building of the intended `Exception` dies first. -/
theorem c2_disconnected_conversion_raises :
    (to_this c2World 0 { owner := 1, x := 5, y := 6, z := 7 }).1 =
      .error .typeError := rfl

/-- C3 (counterexample): in `c3World1` the cached entry written by
`route("a-b", "c")` is returned verbatim for the distinct ordered pair
`("a", "b-c")` because both pairs concatenate to the key `"a-b-c"`; the
returned route differs from the fresh topological search for that pair. -/
theorem c3_cache_key_collision :
    (route c3World1 0 1).1 = some [(2, Dir.root), (3, Dir.down)] ∧
    build_route (to_root c3World1 0) (to_root c3World1 1) =
      some [(0, Dir.root), (1, Dir.down)] ∧
    (route c3World1 0 1).1 ≠
      build_route (to_root c3World1 0) (to_root c3World1 1) :=
  ⟨rfl, rfl, by decide⟩


lemma nat_lt_two_cases {n : ℕ} (h : n < 2) : n = 0 ∨ n = 1 := by omega

lemma goodBase_nil (w : World) : GoodBase w [] := by
  intro k r hkr
  exact Option.noConfusion hkr

lemma to_root_mod_base (w : World) (base : List (String × Route)) (i : ℕ) :
    to_root { w with route_base := base } i = to_root w i := rfl

lemma route_key_mod_base (w : World) (base : List (String × Route)) (a b : ℕ) :
    route_key { w with route_base := base } a b = route_key w a b := rfl

lemma goodBase_route_step (w : World) {base : List (String × Route)}
    (hinj : ∀ a b c d : ℕ, a < w.frames.length → b < w.frames.length →
      c < w.frames.length → d < w.frames.length →
      route_key w a b = route_key w c d → a = c ∧ b = d)
    (a0 b0 : ℕ) (ha0 : a0 < w.frames.length) (hb0 : b0 < w.frames.length)
    (hg : GoodBase w base) :
    GoodBase w (route { w with route_base := base } a0 b0).2 := by
  rcases hl : base.lookup (route_key w a0 b0) with _ | r
  · rcases hb2 : build_route (to_root w a0) (to_root w b0) with _ | built
    · have h2 : (route { w with route_base := base } a0 b0).2 = base := by
        simp [route, route_key_mod_base, to_root_mod_base, hl, hb2]
      rw [h2]; exact hg
    · have h2 : (route { w with route_base := base } a0 b0).2 =
          (route_key w a0 b0, built) :: base := by
        simp [route, route_key_mod_base, to_root_mod_base, hl, hb2]
      rw [h2]
      intro k r hkr a b ha hb hkey
      by_cases hk : k = route_key w a0 b0
      · simp only [List.lookup, hk, beq_self_eq_true] at hkr
        obtain rfl : built = r := Option.some.inj hkr
        obtain ⟨rfl, rfl⟩ := hinj a b a0 b0 ha hb ha0 hb0 (hkey.trans hk)
        exact hb2
      · have hne : (k == route_key w a0 b0) = false := beq_eq_false_iff_ne.mpr hk
        simp only [List.lookup, hne] at hkr
        exact hg k r hkr a b ha hb hkey
  · have h2 : (route { w with route_base := base } a0 b0).2 = base := by
      simp [route, route_key_mod_base, hl]
    rw [h2]; exact hg

lemma goodBase_callRoutes (w : World)
    (hinj : ∀ a b c d : ℕ, a < w.frames.length → b < w.frames.length →
      c < w.frames.length → d < w.frames.length →
      route_key w a b = route_key w c d → a = c ∧ b = d) :
    ∀ (calls : List (ℕ × ℕ)) (base : List (String × Route)),
      (∀ q ∈ calls, q.1 < w.frames.length ∧ q.2 < w.frames.length) →
      GoodBase w base → GoodBase w (callRoutes w calls base) := by
  intro calls
  induction calls with
  | nil => intro base _ hg; exact hg
  | cons q rest ih =>
    intro base hcalls hg
    exact ih _ (fun p hp => hcalls p (List.mem_cons_of_mem q hp))
      (goodBase_route_step w hinj q.1 q.2
        (hcalls q (List.mem_cons_self q rest)).1
        (hcalls q (List.mem_cons_self q rest)).2 hg)

/-- C3 (amended): provided the composite cache key
`from.name ++ "-" ++ to.name` uniquely determines the ordered pair of
frames (e.g. when no frame name contains a hyphen), then after any sequence
of `route` calls starting from an empty cache, every cache entry reachable
under the key of an ordered pair holds exactly the route a fresh
topological search over the two ancestor chains would build, and the keys
of distinct ordered pairs are distinct, so their entries are stored and
looked up independently. -/
theorem c3_route_cache_matches_fresh_search (w : World) (calls : List (ℕ × ℕ))
    (hinj : ∀ a b c d : ℕ, a < w.frames.length → b < w.frames.length →
      c < w.frames.length → d < w.frames.length →
      route_key w a b = route_key w c d → a = c ∧ b = d)
    (hcalls : ∀ q ∈ calls, q.1 < w.frames.length ∧ q.2 < w.frames.length) :
    (∀ a b, a < w.frames.length → b < w.frames.length →
      ∀ r, (callRoutes w calls []).lookup (route_key w a b) = some r →
        build_route (to_root w a) (to_root w b) = some r) ∧
    (∀ a b c d : ℕ, a < w.frames.length → b < w.frames.length →
      c < w.frames.length → d < w.frames.length → (a, b) ≠ (c, d) →
      route_key w a b ≠ route_key w c d) := by
  constructor
  · intro a b ha hb r hr
    exact goodBase_callRoutes w hinj calls [] hcalls (goodBase_nil w)
      (route_key w a b) r hr a b ha hb rfl
  · intro a b c d ha hb hc hd hne heq
    obtain ⟨h1, h2⟩ := hinj a b c d ha hb hc hd heq
    exact hne (by rw [h1, h2])

/-- Witness for `c3_route_cache_matches_fresh_search`: a hyphen-free
two-frame tree, one cached call, and the cached entry for the pair (0, 1)
recovered as the fresh search result. -/
theorem c3_route_cache_witness :
    build_route (to_root c3WitnessWorld 0) (to_root c3WitnessWorld 1) =
      some [(0, Dir.root), (1, Dir.down)] := by
  have hinj : ∀ a b c d : ℕ, a < c3WitnessWorld.frames.length →
      b < c3WitnessWorld.frames.length → c < c3WitnessWorld.frames.length →
      d < c3WitnessWorld.frames.length →
      route_key c3WitnessWorld a b = route_key c3WitnessWorld c d →
      a = c ∧ b = d := by
    intro a b c d ha hb hc hd h
    have ha2 : a < 2 := ha
    have hb2 : b < 2 := hb
    have hc2 : c < 2 := hc
    have hd2 : d < 2 := hd
    rcases nat_lt_two_cases ha2 with rfl | rfl <;>
      rcases nat_lt_two_cases hb2 with rfl | rfl <;>
      rcases nat_lt_two_cases hc2 with rfl | rfl <;>
      rcases nat_lt_two_cases hd2 with rfl | rfl <;>
      first
      | exact ⟨rfl, rfl⟩
      | exact absurd h (by decide)
  exact (c3_route_cache_matches_fresh_search c3WitnessWorld [(0, 1)] hinj
      (by decide)).1 0 1 (by decide) (by decide)
      [(0, Dir.root), (1, Dir.down)] rfl


lemma listModify_forall {α : Type _} {P : α → Prop} (f : α → α)
    (hf : ∀ a, P a → P (f a)) :
    ∀ (i : ℕ) (l : List α), (∀ a ∈ l, P a) → ∀ a ∈ listModify f i l, P a := by
  intro i l
  induction l generalizing i with
  | nil =>
    intro _ a ha
    simp only [listModify] at ha
    exact absurd ha (List.not_mem_nil a)
  | cons b t ih =>
    intro h a ha
    cases i with
    | zero =>
      simp only [listModify] at ha
      rcases List.mem_cons.mp ha with rfl | ha'
      · exact hf b (h b (List.mem_cons_self b t))
      · exact h a (List.mem_cons_of_mem b ha')
    | succ n =>
      simp only [listModify] at ha
      rcases List.mem_cons.mp ha with rfl | ha'
      · exact h a (List.mem_cons_self a t)
      · exact ih n (fun g hg => h g (List.mem_cons_of_mem _ hg)) a ha'

lemma worldInv_mod_base {w : World} (h : WorldInv w) (base : List (String × Route)) :
    WorldInv { w with route_base := base } := h

lemma worldInv_update {w : World} (h : WorldInv w) (i : ℕ) :
    WorldInv (worldUpdateMatFromParent w i) :=
  listModify_forall update_mat_from_parent (fun _ hg => frameInv_update hg) i w.frames h

lemma worldInv_ensure {w : World} (h : WorldInv w) (i : ℕ) :
    WorldInv (ensure_mat_from_parent w i).2 := by
  unfold ensure_mat_from_parent
  split
  · exact h
  · exact worldInv_update h i

lemma worldInv_gather {w : World} (h : WorldInv w) (r : Route) :
    WorldInv (gather_matrices w r).2 := by
  induction r generalizing w with
  | nil => exact h
  | cons nd rest ih =>
    obtain ⟨n, d⟩ := nd
    cases d with
    | up => exact ih h
    | down => exact ih (worldInv_ensure h n)
    | root => exact ih h

lemma get_derivative_ok_inv {cs cs' : CoordinateSystem} {name : String}
    {a b c d e f : Option ℝ}
    (h : get_derivative cs name a b c d e f = .ok cs') : FrameInv cs' := by
  unfold get_derivative at h
  cases c with
  | none =>
    injection h with h2
    rw [← h2]
    exact frameInv_mk _ _ _ _ _ _ _ _
  | some cv =>
    cases d with
    | none => simp [pyAdd] at h
    | some dv =>
      cases e with
      | none => simp [pyAdd] at h
      | some ev =>
        cases f with
        | none => simp [pyAdd] at h
        | some fv =>
          simp only [pyAdd] at h
          injection h with h2
          rw [← h2]
          exact frameInv_mk _ _ _ _ _ _ _ _

lemma worldInv_to_this {w : World} (h : WorldInv w) (i : ℕ) (p : Position) :
    WorldInv (to_this w i p).2 := by
  unfold to_this
  split_ifs with h1 h2 h3
  · exact h
  · exact h
  · exact worldInv_ensure h i
  · split
    · exact worldInv_mod_base h _
    · split
      · exact worldInv_gather (worldInv_mod_base h _) _
      · exact worldInv_gather (worldInv_mod_base h _) _

lemma step_inv {w : World} (h : WorldInv w) (op : Op) : WorldInv (step w op) := by
  cases op with
  | construct parent name x y z rotx roty rotz =>
    intro cs hcs
    rcases List.mem_append.mp hcs with hcs' | hcs'
    · exact h cs hcs'
    · obtain rfl := List.mem_singleton.mp hcs'
      exact frameInv_mk _ _ _ _ _ _ _ _
  | redefineOp i a b c d e f =>
    exact listModify_forall _ (fun g _ => frameInv_redefine g a b c d e f) i w.frames h
  | backupOp i =>
    exact listModify_forall _ (fun _ hg => frameInv_backup hg) i w.frames h
  | rollbackOp i =>
    exact listModify_forall _ (fun g _ => frameInv_redefine g _ _ _ _ _ _) i w.frames h
  | derivativeOp i name a b c d e f =>
    simp only [step]
    split
    · intro cs hcs
      rcases List.mem_append.mp hcs with hcs' | hcs'
      · exact h cs hcs'
      · obtain rfl := List.mem_singleton.mp hcs'
        next heq => exact get_derivative_ok_inv heq
    · exact h
  | convertOp i p => exact worldInv_to_this h i p

lemma run_inv (ops : List Op) : WorldInv (run ops) := by
  have hgen : ∀ (l : List Op) (w : World), WorldInv w → WorldInv (l.foldl step w) := by
    intro l
    induction l with
    | nil => intro w hw; exact hw
    | cons op rest ih => intro w hw; exact ih _ (step_inv hw op)
  exact hgen ops _ (fun cs hcs => absurd hcs (List.not_mem_nil cs))

/-- C6: after every sequence of public operations starting from the empty
heap, every frame satisfies the matrix invariant: `mat_to_parent` is the
Transform Builder matrix of the frame's current six pose scalars, and any
cached `mat_from_parent` is an exact two-sided inverse of the current
`mat_to_parent` (never a stale inverse of a previous pose). -/
theorem c6_matrix_invariant (ops : List Op) :
    ∀ cs ∈ (run ops).frames, FrameInv cs :=
  run_inv ops

/-- Witness for `c6_matrix_invariant` on a one-construction run. -/
theorem c6_matrix_invariant_witness :
    FrameInv (mkCoordinateSystem none "root" 0 0 0 0 0 0) :=
  c6_matrix_invariant [Op.construct none "root" 0 0 0 0 0 0]
    (mkCoordinateSystem none "root" 0 0 0 0 0 0)
    (List.mem_singleton_self _)


lemma getD_listModify_self {α : Type _} (f : α → α) (d : α) :
    ∀ (i : ℕ) (l : List α), i < l.length →
      (listModify f i l).getD i d = f (l.getD i d) := by
  intro i l
  induction l generalizing i with
  | nil => intro h; exact absurd h (by simp)
  | cons b t ih =>
    intro h
    cases i with
    | zero => rfl
    | succ n => exact ih n (Nat.lt_of_succ_lt_succ h)

lemma frameAt_update_self {w : World} {i : ℕ} (h : i < w.frames.length) :
    frameAt (worldUpdateMatFromParent w i) i = update_mat_from_parent (frameAt w i) :=
  getD_listModify_self update_mat_from_parent defaultCS i w.frames h

lemma colOf_apply_0 (p : Position) : colOf p 0 0 = p.x := by
  simp [colOf]

lemma colOf_apply_1 (p : Position) : colOf p 1 0 = p.y := by
  simp [colOf]

lemma colOf_apply_2 (p : Position) : colOf p 2 0 = p.z := by
  simp [colOf, Matrix.vecHead, Matrix.vecTail]

lemma colOf_apply_3 (p : Position) : colOf p 3 0 = 1 := by
  simp [colOf, Matrix.vecHead, Matrix.vecTail]

lemma mul_col_last_row {M : Mat4} (hrow : ∀ j, M 3 j = (1 : Mat4) 3 j) (v : Col4) :
    (M * v) 3 0 = v 3 0 := by
  rw [Matrix.mul_apply, Fin.sum_univ_four, hrow 0, hrow 1, hrow 2, hrow 3,
    Matrix.one_apply_ne (by decide), Matrix.one_apply_ne (by decide),
    Matrix.one_apply_ne (by decide), Matrix.one_apply_eq]
  ring

/-- C8: for a frame `F` whose parent is `G` and a position `P` owned by
`G`, the round trip `G.to_this (F.to_this P)` returns a position whose
coordinates equal those of `P` exactly (the from-parent matrix applied by
the first conversion is the exact inverse of the `mat_to_parent` applied by
the second, so in the real-arithmetic model the identity holds with no
tolerance needed). -/
theorem c8_round_trip (w : World) (F G : ℕ) (p : Position)
    (hFG : F ≠ G)
    (hFlt : F < w.frames.length)
    (hpar : (frameAt w F).parent = some G)
    (hGpar : (frameAt w G).parent ≠ some F)
    (hpown : p.owner = G)
    (hInv : FrameInv (frameAt w F)) :
    ∃ q w', to_this w F p = (.ok (.converted q), w') ∧
      ∃ q', to_this w' G q = (.ok (.converted q'), w') ∧
        q'.x = p.x ∧ q'.y = p.y ∧ q'.z = p.z ∧ q'.owner = G := by
  subst hpown
  obtain ⟨m, w', hens, hMm, hmM, hw'par, hw'mat⟩ :
      ∃ m w', ensure_mat_from_parent w F = (m, w') ∧
        (frameAt w F).mat_to_parent * m = 1 ∧
        m * (frameAt w F).mat_to_parent = 1 ∧
        (frameAt w' F).parent = (frameAt w F).parent ∧
        (frameAt w' F).mat_to_parent = (frameAt w F).mat_to_parent := by
    rcases hmf : (frameAt w F).mat_from_parent with _ | m0
    · refine ⟨(frameAt w F).mat_to_parent⁻¹, worldUpdateMatFromParent w F,
        ?_, ?_, ?_, ?_, ?_⟩
      · simp [ensure_mat_from_parent, hmf]
      · rw [hInv.1]; exact calc_mul_own_inv _ _ _ _ _ _
      · rw [hInv.1]; exact calc_own_inv_mul _ _ _ _ _ _
      · rw [frameAt_update_self hFlt]; rfl
      · rw [frameAt_update_self hFlt]; rfl
    · exact ⟨m0, w, by simp [ensure_mat_from_parent, hmf], (hInv.2 m0 hmf).1,
        (hInv.2 m0 hmf).2, rfl, rfl⟩
  have h1 : ¬ p.owner = F := fun hc => hFG hc.symm
  have h2 : ¬ (frameAt w p.owner).parent = some F := hGpar
  have hfirst : to_this w F p =
      (.ok (.converted (fill_position F (m * colOf p))), w') := by
    simp only [to_this]
    rw [if_neg h1, if_neg h2, if_pos hpar, hens]
  have hrow : ∀ j, (frameAt w F).mat_to_parent 3 j = (1 : Mat4) 3 j := by
    intro j; rw [hInv.1]; exact calc_last_row _ _ _ _ _ _ j
  have hfull : (frameAt w F).mat_to_parent * (m * colOf p) = colOf p := by
    rw [← Matrix.mul_assoc, hMm, Matrix.one_mul]
  have hv3 : (m * colOf p) 3 0 = 1 := by
    have h6 := mul_col_last_row hrow (m * colOf p)
    rw [hfull, colOf_apply_3] at h6
    exact h6.symm
  have hcol : colOf (fill_position F (m * colOf p)) = m * colOf p := by
    ext i j
    fin_cases j
    fin_cases i
    · exact colOf_apply_0 _
    · exact colOf_apply_1 _
    · exact colOf_apply_2 _
    · exact (colOf_apply_3 _).trans hv3.symm
  have hq1 : ¬ (fill_position F (m * colOf p)).owner = p.owner := fun hc => hFG hc
  have hq2 : (frameAt w' (fill_position F (m * colOf p)).owner).parent =
      some p.owner := by
    show (frameAt w' F).parent = some p.owner
    rw [hw'par, hpar]
  have hsecond : to_this w' p.owner (fill_position F (m * colOf p)) =
      (.ok (.converted (fill_position p.owner
        ((frameAt w' (fill_position F (m * colOf p)).owner).mat_to_parent *
          colOf (fill_position F (m * colOf p))))), w') := by
    simp only [to_this]
    rw [if_neg hq1, if_pos hq2]
  have hagg : (frameAt w' (fill_position F (m * colOf p)).owner).mat_to_parent *
      colOf (fill_position F (m * colOf p)) = colOf p := by
    show (frameAt w' F).mat_to_parent * colOf (fill_position F (m * colOf p)) = colOf p
    rw [hw'mat, hcol, hfull]
  refine ⟨fill_position F (m * colOf p), w', hfirst,
    fill_position p.owner
      ((frameAt w' (fill_position F (m * colOf p)).owner).mat_to_parent *
        colOf (fill_position F (m * colOf p))), hsecond, ?_, ?_, ?_, rfl⟩
  · rw [show (fill_position p.owner
        ((frameAt w' (fill_position F (m * colOf p)).owner).mat_to_parent *
          colOf (fill_position F (m * colOf p)))).x =
        ((frameAt w' (fill_position F (m * colOf p)).owner).mat_to_parent *
          colOf (fill_position F (m * colOf p))) 0 0 from rfl, hagg]
    exact colOf_apply_0 p
  · rw [show (fill_position p.owner
        ((frameAt w' (fill_position F (m * colOf p)).owner).mat_to_parent *
          colOf (fill_position F (m * colOf p)))).y =
        ((frameAt w' (fill_position F (m * colOf p)).owner).mat_to_parent *
          colOf (fill_position F (m * colOf p))) 1 0 from rfl, hagg]
    exact colOf_apply_1 p
  · rw [show (fill_position p.owner
        ((frameAt w' (fill_position F (m * colOf p)).owner).mat_to_parent *
          colOf (fill_position F (m * colOf p)))).z =
        ((frameAt w' (fill_position F (m * colOf p)).owner).mat_to_parent *
          colOf (fill_position F (m * colOf p))) 2 0 from rfl, hagg]
    exact colOf_apply_2 p

/-- Witness for `c8_round_trip` on a concrete parent-child pair. -/
theorem c8_round_trip_witness :
    ∃ q w', to_this c8World 1 { owner := 0, x := 2, y := 3, z := 4 } =
        (.ok (.converted q), w') ∧
      ∃ q', to_this w' 0 q = (.ok (.converted q'), w') ∧
        q'.x = ({ owner := 0, x := 2, y := 3, z := 4 } : Position).x ∧
        q'.y = ({ owner := 0, x := 2, y := 3, z := 4 } : Position).y ∧
        q'.z = ({ owner := 0, x := 2, y := 3, z := 4 } : Position).z ∧
        q'.owner = 0 :=
  c8_round_trip c8World 1 0 { owner := 0, x := 2, y := 3, z := 4 }
    (by decide) (by decide) rfl (by decide) rfl
    ⟨rfl, fun m hm => Option.noConfusion hm⟩
